import Mathlib

/-!
Verification of `src/scripts/translation.py`: a shallow embedding of the
translation cache, the two schema-aware tree traversals, the progress
counters and the per-document orchestration, together with theorems that
settle the specification claims.

Conventions of the embedding:
* a JSON document is the inductive `JValue` (objects keep key order,
  mirroring Python dict iteration order);
* the external world visible to the script (the three files and the number
  of provider round trips) is the structure `World`;
* the provider is an oracle `Nat → ProviderResult` giving the outcome of
  the n-th HTTP call of the run;
* `sys.exit` paths are the `Res.exited` constructor, which keeps only the
  `World` (process memory is discarded on exit).
-/

set_option autoImplicit false

namespace Translation

mutual

/-- A JSON value, as produced by `json.load`.  Object member order is the
insertion order of the underlying Python dict. -/
inductive JValue where
  | obj : JObj → JValue
  | arr : JArr → JValue
  | str : String → JValue
  | num : Int → JValue
  | jbool : Bool → JValue
  | null : JValue

inductive JObj where
  | nil : JObj
  | cons : String → JValue → JObj → JObj

inductive JArr where
  | nil : JArr
  | cons : JValue → JArr → JArr

end

/-- `isinstance(value, str)`. -/
def JValue.isStr : JValue → Bool
  | .str _ => true
  | _ => false

/-- `isinstance(value, list)`. -/
def JValue.isList : JValue → Bool
  | .arr _ => true
  | _ => false

/-- `REPLACE_TARGET_KEYS` (translation.py line 9). -/
def REPLACE_TARGET_KEYS : List String :=
  ["title", "label", "contents", "displayName", "description", "markdownDescription"]

/-- `sum(1 for item in value if isinstance(item, str))` — the number of
string elements of a JSON array. -/
def strElems : JArr → Nat
  | .nil => 0
  | .cons v rest => (if v.isStr then 1 else 0) + strElems rest

mutual

/-- `count_translatable_items` (package.json schema, lines 183-196). -/
def count_translatable_items : JValue → Nat
  | .obj o => countItemsObj o
  | .arr a => countItemsArr a
  | _ => 0

def countItemsObj : JObj → Nat
  | .nil => 0
  | .cons key value rest =>
    (if REPLACE_TARGET_KEYS.contains key && value.isStr then 1
     else if key == "enumDescriptions" && value.isList then
       (match value with
        | .arr a => strElems a
        | _ => 0)
     else count_translatable_items value) + countItemsObj rest

def countItemsArr : JArr → Nat
  | .nil => 0
  | .cons item rest => count_translatable_items item + countItemsArr rest

end

mutual

/-- Number of `translate_text` invocations that `traverse_and_translate`
(lines 199-214) performs on a value: 1 for each string stored under a key of
`REPLACE_TARGET_KEYS`, 1 for each string element of an `enumDescriptions`
array, recursing exactly where the traversal recurses. -/
def settings_invocations : JValue → Nat
  | .obj o => settingsInvObj o
  | .arr a => settingsInvArr a
  | _ => 0

def settingsInvObj : JObj → Nat
  | .nil => 0
  | .cons key value rest =>
    (if REPLACE_TARGET_KEYS.contains key && value.isStr then 1
     else if key == "enumDescriptions" && value.isList then
       (match value with
        | .arr a => strElems a
        | _ => 0)
     else settings_invocations value) + settingsInvObj rest

def settingsInvArr : JArr → Nat
  | .nil => 0
  | .cons item rest => settings_invocations item + settingsInvArr rest

end

mutual

/-- `count_contributions_translatable_items` (contributions.json schema,
lines 217-234).  Note the `title`/`description` branch of the source has the
same body as the final `else` branch: both only recurse. -/
def count_contributions_translatable_items : JValue → Nat
  | .obj o => countContribObj o
  | .arr a => countContribArr a
  | _ => 0

def countContribObj : JObj → Nat
  | .nil => 0
  | .cons key value rest =>
    (if key == "label" && value.isStr then 1
     else if key == "name" && value.isStr then 1
     else if key == "contents" && value.isStr then 1
     else if key == "title" || key == "description" then
       count_contributions_translatable_items value
     else count_contributions_translatable_items value) + countContribObj rest

def countContribArr : JArr → Nat
  | .nil => 0
  | .cons item rest => count_contributions_translatable_items item + countContribArr rest

end

mutual

/-- Number of `translate_text` invocations that `translate_in_object`
(lines 259-274) performs on a value: unlike the count pass, the traversal
translates a string found directly under a `title` or `description` key. -/
def contributions_invocations : JValue → Nat
  | .obj o => contribInvObj o
  | .arr a => contribInvArr a
  | _ => 0

def contribInvObj : JObj → Nat
  | .nil => 0
  | .cons key value rest =>
    (if key == "label" && value.isStr then 1
     else if key == "name" && value.isStr then 1
     else if key == "contents" && value.isStr then 1
     else if (key == "title" || key == "description") && value.isStr then 1
     else contributions_invocations value) + contribInvObj rest

def contribInvArr : JArr → Nat
  | .nil => 0
  | .cons item rest => contributions_invocations item + contribInvArr rest

end

mutual

/-- Number of string values stored directly under a `title` or `description`
key at the positions `translate_in_object` reaches: exactly the leaves the
contributions count pass misses. -/
def tdStringLeaves : JValue → Nat
  | .obj o => tdStringObj o
  | .arr a => tdStringArr a
  | _ => 0

def tdStringObj : JObj → Nat
  | .nil => 0
  | .cons key value rest =>
    (if key == "label" && value.isStr then 0
     else if key == "name" && value.isStr then 0
     else if key == "contents" && value.isStr then 0
     else if (key == "title" || key == "description") && value.isStr then 1
     else tdStringLeaves value) + tdStringObj rest

def tdStringArr : JArr → Nat
  | .nil => 0
  | .cons item rest => tdStringLeaves item + tdStringArr rest

end

/-- Characters removed by Python's argumentless `str.strip()`: the Unicode
whitespace code points recognised by `str.isspace()`. -/
def isPySpace (c : Char) : Bool :=
  let n := c.toNat
  (9 ≤ n && n ≤ 13) || (28 ≤ n && n ≤ 32) || n == 133 || n == 160 || n == 5760 ||
  (8192 ≤ n && n ≤ 8202) || n == 8232 || n == 8233 || n == 8239 || n == 8287 || n == 12288

/-- Python `text.strip()`: drop leading and trailing whitespace. -/
def pyStrip (s : String) : String :=
  ⟨((s.data.dropWhile isPySpace).reverse.dropWhile isPySpace).reverse⟩

/-- The guard `if not text or not text.strip():` of `translate_text`
(line 120): true for the empty string and for whitespace-only strings. -/
def passThrough (text : String) : Bool :=
  text.isEmpty || (pyStrip text).isEmpty

/-- The in-memory mapping of a `TranslationDictionary`: an ordered
association list, mirroring a Python dict from source text to translation. -/
def Mem : Type := List (String × String)

/-- `self.dictionary[text] = translated` on a Python dict: overwrite the
entry if the key is present, otherwise append it. -/
def dictInsert (k v : String) : List (String × String) → List (String × String)
  | [] => [(k, v)]
  | (k', v') :: rest => if k' = k then (k, v) :: rest else (k', v') :: dictInsert k v rest

/-- The state outside the process: the three files the script touches
(`None` = file absent; contents are kept in parsed form) and, as the record
of the external interface, the number of provider round trips made so far. -/
structure World where
  packageFile : Option JValue
  contributionsFile : Option JValue
  dictFile : Option (List (String × String))
  providerCalls : Nat

/-- Outcome of one HTTP round trip in `translate_text` (lines 157-180),
one constructor per `except` arm of the source plus the success path. -/
inductive ProviderResult where
  | success : String → ProviderResult
  | interrupt : ProviderResult
  | timeout : ProviderResult
  | requestError : ProviderResult
  | jsonDecodeError : ProviderResult
  | otherError : ProviderResult
deriving Repr, DecidableEq

/-- `TranslationDictionary` (lines 60-84): the in-memory dict; the backing
file lives in the `World`. -/
structure TranslationDictionary where
  dictionary : List (String × String)

/-- `TranslationDictionary.load` (lines 66-70): a missing backing file gives
an empty dict. -/
def TranslationDictionary.load (w : World) : TranslationDictionary :=
  ⟨w.dictFile.getD []⟩

/-- `TranslationDictionary.save` (lines 72-74): rewrite the backing file
with the entire in-memory mapping. -/
def TranslationDictionary.save (d : TranslationDictionary) (w : World) : World :=
  { w with dictFile := some d.dictionary }

/-- `TranslationDictionary.get` (lines 76-77). -/
def TranslationDictionary.get (d : TranslationDictionary) (text : String) : Option String :=
  d.dictionary.lookup text

/-- `TranslationDictionary.set` (lines 79-81): insert, then save. -/
def TranslationDictionary.set (d : TranslationDictionary) (text translated : String)
    (w : World) : TranslationDictionary × World :=
  let d' : TranslationDictionary := ⟨dictInsert text translated d.dictionary⟩
  (d', d'.save w)

/-- `text in self.dictionary` (lines 83-84). -/
def TranslationDictionary.existsEntry (d : TranslationDictionary) (text : String) : Bool :=
  (d.dictionary.lookup text).isSome

/-- `ProgressBar` counters (lines 87-102); `draw`/`finish` only print and
the `width`/`desc` fields only feed `draw`, so they are not modelled. -/
structure ProgressBar where
  total : Nat
  current : Nat
  api_calls : Nat
  cache_hits : Nat
deriving Repr, DecidableEq

/-- `ProgressBar.update` (lines 96-102). -/
def ProgressBar.update (p : ProgressBar) (n : Nat) (api_call : Bool) (cache_hit : Bool) :
    ProgressBar :=
  { p with
    current := p.current + n
    api_calls := p.api_calls + (if api_call then 1 else 0)
    cache_hits := p.cache_hits + (if cache_hit then 1 else 0) }

/-- Result of a step of the run: either a value together with the new
external world, dictionary and progress state, or a process exit
(`sys.exit`), which keeps only the world. -/
inductive Res (α : Type) where
  | ok : α → World → TranslationDictionary → ProgressBar → Res α
  | exited : World → Res α

/-- `translate_text` (lines 119-180).  The provider oracle maps the index of
the HTTP call to its outcome; a `KeyboardInterrupt` during the call is the
`interrupt` outcome and takes the save-and-exit arm (lines 164-168). -/
def translate_text (provider : Nat → ProviderResult) (text : String) (w : World)
    (d : TranslationDictionary) (p : ProgressBar) : Res String :=
  if passThrough text then .ok text w d p
  else
    match d.dictionary.lookup text with
    | some v => .ok v w d (p.update 1 false true)
    | none =>
      let p' := p.update 1 true false
      let w' := { w with providerCalls := w.providerCalls + 1 }
      match provider w.providerCalls with
      | .success content =>
        let translated := pyStrip content
        let (d', w'') := d.set text translated w'
        .ok translated w'' d' p'
      | .interrupt => .exited (d.save w')
      | .timeout => .ok text w' d p'
      | .requestError => .ok text w' d p'
      | .jsonDecodeError => .ok text w' d p'
      | .otherError => .ok text w' d p'

/-- The string held by a string value (only ever applied under a guard that
the value is a string). -/
def JValue.asStr : JValue → String
  | .str s => s
  | _ => ""

section Traversals

variable (provider : Nat → ProviderResult)

mutual

/-- `traverse_and_translate` (lines 199-214, package.json schema).  The
`path` argument of the source only feeds log messages and is dropped.
Mutation of `obj[key]` / `value[i]` in place becomes rebuilding the node. -/
def traverse_and_translate : JValue → World → TranslationDictionary → ProgressBar → Res JValue
  | .obj o, w, d, p =>
    match travSettingsObj o w d p with
    | .ok o' w' d' p' => .ok (.obj o') w' d' p'
    | .exited w' => .exited w'
  | .arr a, w, d, p =>
    match travSettingsArr a w d p with
    | .ok a' w' d' p' => .ok (.arr a') w' d' p'
    | .exited w' => .exited w'
  | v, w, d, p => .ok v w d p

/-- The `isinstance(obj, dict)` arm of `traverse_and_translate`
(lines 200-210), one key at a time. -/
def travSettingsObj : JObj → World → TranslationDictionary → ProgressBar → Res JObj
  | .nil, w, d, p => .ok .nil w d p
  | .cons key value rest, w, d, p =>
    if REPLACE_TARGET_KEYS.contains key && value.isStr then
      match translate_text provider value.asStr w d p with
      | .ok r w' d' p' =>
        match travSettingsObj rest w' d' p' with
        | .ok rest' w2 d2 p2 => .ok (.cons key (.str r) rest') w2 d2 p2
        | .exited w2 => .exited w2
      | .exited w' => .exited w'
    else if key == "enumDescriptions" && value.isList then
      match value with
      | .arr a =>
        match travEnumDescriptions a w d p with
        | .ok a' w' d' p' =>
          match travSettingsObj rest w' d' p' with
          | .ok rest' w2 d2 p2 => .ok (.cons key (.arr a') rest') w2 d2 p2
          | .exited w2 => .exited w2
        | .exited w' => .exited w'
      | _ =>
        -- dead branch: the guard ensures the value is an array
        .exited w
    else
      match traverse_and_translate value w d p with
      | .ok v' w' d' p' =>
        match travSettingsObj rest w' d' p' with
        | .ok rest' w2 d2 p2 => .ok (.cons key v' rest') w2 d2 p2
        | .exited w2 => .exited w2
      | .exited w' => .exited w'

/-- The `enumDescriptions` arm (lines 206-208): translate string elements in
place, leave other elements untouched (no recursion into them). -/
def travEnumDescriptions : JArr → World → TranslationDictionary → ProgressBar → Res JArr
  | .nil, w, d, p => .ok .nil w d p
  | .cons item rest, w, d, p =>
    if item.isStr then
      match translate_text provider item.asStr w d p with
      | .ok r w' d' p' =>
        match travEnumDescriptions rest w' d' p' with
        | .ok rest' w2 d2 p2 => .ok (.cons (.str r) rest') w2 d2 p2
        | .exited w2 => .exited w2
      | .exited w' => .exited w'
    else
      match travEnumDescriptions rest w d p with
      | .ok rest' w' d' p' => .ok (.cons item rest') w' d' p'
      | .exited w' => .exited w'

/-- The `isinstance(obj, list)` arm of `traverse_and_translate`
(lines 211-214): recurse into each element, preserving order. -/
def travSettingsArr : JArr → World → TranslationDictionary → ProgressBar → Res JArr
  | .nil, w, d, p => .ok .nil w d p
  | .cons item rest, w, d, p =>
    match traverse_and_translate item w d p with
    | .ok item' w' d' p' =>
      match travSettingsArr rest w' d' p' with
      | .ok rest' w2 d2 p2 => .ok (.cons item' rest') w2 d2 p2
      | .exited w2 => .exited w2
    | .exited w' => .exited w'

end

mutual

/-- `translate_in_object`, the closure inside `translate_contributions_file`
(lines 259-274, contributions.json schema).  The `current_path` argument is
unused by the source beyond recursion bookkeeping and is dropped. -/
def translate_in_object : JValue → World → TranslationDictionary → ProgressBar → Res JValue
  | .obj o, w, d, p =>
    match travContribObj o w d p with
    | .ok o' w' d' p' => .ok (.obj o') w' d' p'
    | .exited w' => .exited w'
  | .arr a, w, d, p =>
    match travContribArr a w d p with
    | .ok a' w' d' p' => .ok (.arr a') w' d' p'
    | .exited w' => .exited w'
  | v, w, d, p => .ok v w d p

/-- The `isinstance(obj, dict)` arm of `translate_in_object`
(lines 260-271), one key at a time. -/
def travContribObj : JObj → World → TranslationDictionary → ProgressBar → Res JObj
  | .nil, w, d, p => .ok .nil w d p
  | .cons key value rest, w, d, p =>
    if key == "label" && value.isStr then
      match translate_text provider value.asStr w d p with
      | .ok r w' d' p' =>
        match travContribObj rest w' d' p' with
        | .ok rest' w2 d2 p2 => .ok (.cons key (.str r) rest') w2 d2 p2
        | .exited w2 => .exited w2
      | .exited w' => .exited w'
    else if key == "name" && value.isStr then
      match translate_text provider value.asStr w d p with
      | .ok r w' d' p' =>
        match travContribObj rest w' d' p' with
        | .ok rest' w2 d2 p2 => .ok (.cons key (.str r) rest') w2 d2 p2
        | .exited w2 => .exited w2
      | .exited w' => .exited w'
    else if key == "contents" && value.isStr then
      match translate_text provider value.asStr w d p with
      | .ok r w' d' p' =>
        match travContribObj rest w' d' p' with
        | .ok rest' w2 d2 p2 => .ok (.cons key (.str r) rest') w2 d2 p2
        | .exited w2 => .exited w2
      | .exited w' => .exited w'
    else if (key == "title" || key == "description") && value.isStr then
      match translate_text provider value.asStr w d p with
      | .ok r w' d' p' =>
        match travContribObj rest w' d' p' with
        | .ok rest' w2 d2 p2 => .ok (.cons key (.str r) rest') w2 d2 p2
        | .exited w2 => .exited w2
      | .exited w' => .exited w'
    else
      match translate_in_object value w d p with
      | .ok v' w' d' p' =>
        match travContribObj rest w' d' p' with
        | .ok rest' w2 d2 p2 => .ok (.cons key v' rest') w2 d2 p2
        | .exited w2 => .exited w2
      | .exited w' => .exited w'

/-- The `isinstance(obj, list)` arm of `translate_in_object`
(lines 272-274). -/
def travContribArr : JArr → World → TranslationDictionary → ProgressBar → Res JArr
  | .nil, w, d, p => .ok .nil w d p
  | .cons item rest, w, d, p =>
    match translate_in_object item w d p with
    | .ok item' w' d' p' =>
      match travContribArr rest w' d' p' with
      | .ok rest' w2 d2 p2 => .ok (.cons item' rest') w2 d2 p2
      | .exited w2 => .exited w2
    | .exited w' => .exited w'

end

end Traversals

/-- Result of a per-document run: the source's boolean return value with the
final world and dictionary, or a process exit. -/
inductive RunRes where
  | ok : Bool → World → TranslationDictionary → RunRes
  | exited : World → RunRes

/-- `translate_contributions_file` (lines 237-284).  The `already_translated`
and `remaining` figures it computes (lines 253-255) only feed a log line, so
they do not appear; the file is rewritten only after `translate_in_object`
finishes on the whole document. -/
def translate_contributions_file (provider : Nat → ProviderResult) (w : World)
    (d : TranslationDictionary) : RunRes :=
  match w.contributionsFile with
  | none => .ok false w d
  | some data =>
    let total_items := count_contributions_translatable_items data
    if total_items == 0 then .ok true w d
    else
      match translate_in_object provider data w d ⟨total_items, 0, 0, 0⟩ with
      | .ok data' w' d' _progress => .ok true { w' with contributionsFile := some data' } d'
      | .exited w' => .exited w'

/-- How the process ends. `errorExit` is `sys.exit(1)` (missing key or
missing package.json); `interrupted` is the `sys.exit(0)` of the interrupt
arm of `translate_text`; `nameError` is the unhandled NameError raised by
line 341 (`progress.api_calls`) when the `remaining <= 0` branch of `main`
was taken, on which `progress` is never assigned. -/
inductive MainOutcome where
  | success : MainOutcome
  | errorExit : MainOutcome
  | nameError : MainOutcome
  | interrupted : MainOutcome
deriving Repr, DecidableEq

/-- `main` (lines 295-356).  Returns how the process ends together with the
final external world.  Steps in source order: load the dictionary, resolve
the key (empty ⇒ exit 1), load package.json (absent ⇒ exit 1), count, branch
on `remaining`, run the package.json pass, write package.json back, run
`translate_contributions_file`, save the dictionary.  On the
`remaining <= 0` branch the pass still runs, but line 341 then reads the
unassigned local `progress` and the run dies before any write-back.
`already_translated` counts the dict's keys (JSON object keys are always
strings, so the `isinstance(k, str)` filter of line 326 keeps them all). -/
def main (provider : Nat → ProviderResult) (api_key : String) (w : World) :
    MainOutcome × World :=
  let dictionary := TranslationDictionary.load w
  if api_key.isEmpty then (.errorExit, w)
  else
    match w.packageFile with
    | none => (.errorExit, w)
    | some data =>
      let total_items := count_translatable_items data
      let already_translated := dictionary.dictionary.length
      let remaining : Int := (total_items : Int) - (already_translated : Int)
      if remaining ≤ 0 then
        match traverse_and_translate provider data w dictionary ⟨total_items, 0, 0, 0⟩ with
        | .exited w' => (.interrupted, w')
        | .ok _data' w' _d' _p' => (.nameError, w')
      else
        match traverse_and_translate provider data w dictionary ⟨total_items, 0, 0, 0⟩ with
        | .exited w' => (.interrupted, w')
        | .ok data' w' d' _p' =>
          let w2 := { w' with packageFile := some data' }
          match translate_contributions_file provider w2 d' with
          | .exited w3 => (.interrupted, w3)
          | .ok _b w3 d3 => (.success, d3.save w3)

/-! ## Count pass versus translate pass -/

/-- A value the contributions schema treats as a string is a leaf for the
count pass, which therefore never finds anything below it. -/
theorem countContrib_of_isStr (v : JValue) (h : v.isStr = true) :
    count_contributions_translatable_items v = 0 := by
  cases v <;> first
    | rfl
    | exact Bool.noConfusion h

mutual

theorem settingsInv_eq_count : ∀ (v : JValue),
    settings_invocations v = count_translatable_items v
  | .obj o => by
    simp only [settings_invocations, count_translatable_items, settingsInvObj_eq_count o]
  | .arr a => by
    simp only [settings_invocations, count_translatable_items, settingsInvArr_eq_count a]
  | .str _ => rfl
  | .num _ => rfl
  | .jbool _ => rfl
  | .null => rfl

theorem settingsInvObj_eq_count : ∀ (o : JObj), settingsInvObj o = countItemsObj o
  | .nil => rfl
  | .cons key value rest => by
    simp only [settingsInvObj, countItemsObj, settingsInv_eq_count value,
      settingsInvObj_eq_count rest]

theorem settingsInvArr_eq_count : ∀ (a : JArr), settingsInvArr a = countItemsArr a
  | .nil => rfl
  | .cons item rest => by
    simp only [settingsInvArr, countItemsArr, settingsInv_eq_count item,
      settingsInvArr_eq_count rest]

end

mutual

theorem contribInv_eq_count : ∀ (v : JValue),
    contributions_invocations v =
      count_contributions_translatable_items v + tdStringLeaves v
  | .obj o => by
    simp only [contributions_invocations, count_contributions_translatable_items,
      tdStringLeaves, contribInvObj_eq_count o]
  | .arr a => by
    simp only [contributions_invocations, count_contributions_translatable_items,
      tdStringLeaves, contribInvArr_eq_count a]
  | .str _ => rfl
  | .num _ => rfl
  | .jbool _ => rfl
  | .null => rfl

theorem contribInvObj_eq_count : ∀ (o : JObj),
    contribInvObj o = countContribObj o + tdStringObj o
  | .nil => rfl
  | .cons key value rest => by
    have hv := contribInv_eq_count value
    have hr := contribInvObj_eq_count rest
    simp only [contribInvObj, countContribObj, tdStringObj]
    by_cases hL : (key == "label" && value.isStr) = true
    · simp [hL]; omega
    · by_cases hN : (key == "name" && value.isStr) = true
      · simp [hL, hN]; omega
      · by_cases hC : (key == "contents" && value.isStr) = true
        · simp [hL, hN, hC]; omega
        · by_cases hT : ((key == "title" || key == "description") && value.isStr) = true
          · have hT' := hT
            rw [Bool.and_eq_true] at hT'
            obtain ⟨h1, h2⟩ := hT'
            have hcc := countContrib_of_isStr value h2
            simp [h2] at hL hN hC
            simp [hL, hN, hC, h1, h2, hcc]; omega
          · by_cases hTD : (key == "title" || key == "description") = true
            · have hS : value.isStr = false := by
                cases hs : value.isStr with
                | false => rfl
                | true => exact absurd (by simp [hTD, hs]) hT
              simp [hL, hN, hC, hT, hTD, hS]; omega
            · simp [hL, hN, hC, hT, hTD]; omega

theorem contribInvArr_eq_count : ∀ (a : JArr),
    contribInvArr a = countContribArr a + tdStringArr a
  | .nil => rfl
  | .cons item rest => by
    have hv := contribInv_eq_count item
    have hr := contribInvArr_eq_count rest
    simp only [contribInvArr, countContribArr, tdStringArr]
    omega

end

/-- The document `{"title": "Hello"}`. -/
def titleHelloDoc : JValue := .obj (.cons "title" (.str "Hello") .nil)

/-- C1, counterexample.  On the contributions document `{"title": "Hello"}`
the count pass returns 0 — its `title`/`description` branch only recurses,
and recursing into a string finds nothing — yet `translate_in_object`
invokes `translate_text` once on `"Hello"` (and, run against a
cache-missing, succeeding provider, performs one leaf-level progress update
and one provider call).  So the count pass total does not equal the number
of `translate_text` invocations of the translate pass. -/
theorem C1_counterexample :
    count_contributions_translatable_items titleHelloDoc = 0 ∧
    contributions_invocations titleHelloDoc = 1 ∧
    translate_in_object (fun _ => .success "你好") titleHelloDoc
        ⟨none, none, none, 0⟩ ⟨[]⟩ ⟨0, 0, 0, 0⟩ =
      .ok (.obj (.cons "title" (.str "你好") .nil))
        ⟨none, none, some [("Hello", "你好")], 1⟩ ⟨[("Hello", "你好")]⟩ ⟨0, 1, 1, 0⟩ :=
  ⟨rfl, rfl, rfl⟩

/-- C1 (amended).  For the settings schema the agreement holds: the number
of `translate_text` invocations `traverse_and_translate` performs equals
`count_translatable_items` (leaf-level `update` events can be fewer only
when a counted leaf is empty or whitespace-only, which `translate_text`
passes through without updating).  For the contributions schema,
`translate_in_object` performs `count_contributions_translatable_items v`
invocations **plus one for every string value stored under a `title` or
`description` key**, which the count pass misses. -/
theorem C1_invocations_versus_count (v : JValue) :
    settings_invocations v = count_translatable_items v ∧
    contributions_invocations v =
      count_contributions_translatable_items v + tdStringLeaves v :=
  ⟨settingsInv_eq_count v, contribInv_eq_count v⟩

/-! ## Dictionary lemmas -/

/-- After a Python dict assignment the key maps to the new value. -/
theorem lookup_dictInsert_self (k v : String) (l : List (String × String)) :
    (dictInsert k v l).lookup k = some v := by
  induction l with
  | nil => simp [dictInsert, List.lookup]
  | cons hd tl ih =>
    obtain ⟨k', v'⟩ := hd
    by_cases h : k' = k
    · subst h
      simp [dictInsert, List.lookup]
    · have h' : (k == k') = false := beq_eq_false_iff_ne.mpr fun he => h he.symm
      simp [dictInsert, h, List.lookup, h', ih]

/-- A Python dict assignment leaves every other key unchanged. -/
theorem lookup_dictInsert_ne (k k' v : String) (l : List (String × String)) (h : k' ≠ k) :
    (dictInsert k' v l).lookup k = l.lookup k := by
  have hkk : (k == k') = false := beq_eq_false_iff_ne.mpr fun he => h he.symm
  induction l with
  | nil => simp [dictInsert, List.lookup, hkk]
  | cons hd tl ih =>
    obtain ⟨k'', v''⟩ := hd
    by_cases h2 : k'' = k'
    · subst h2
      simp [dictInsert, List.lookup, hkk]
    · simp [dictInsert, h2, List.lookup, ih]

/-- `subDict a b`: every entry of `a` is in `b` with the same value.  The
in-memory dictionary only ever grows during a run — `translate_text` inserts
a key only after a cache miss on it, so existing translations are never
overwritten. -/
def subDict (a b : List (String × String)) : Prop :=
  ∀ (k v : String), a.lookup k = some v → b.lookup k = some v

theorem subDict_refl (a : List (String × String)) : subDict a a := fun _ _ h => h

theorem subDict_trans {a b c : List (String × String)}
    (h1 : subDict a b) (h2 : subDict b c) : subDict a c :=
  fun k v h => h2 k v (h1 k v h)

/-- Inserting a key that was absent keeps every existing entry, value
included. -/
theorem subDict_dictInsert (k v : String) (l : List (String × String))
    (habs : l.lookup k = none) : subDict l (dictInsert k v l) := by
  intro k' v' h
  by_cases hk : k' = k
  · subst hk
    rw [habs] at h
    exact Option.noConfusion h
  · rwa [lookup_dictInsert_ne k' k v l (fun he => hk he.symm)]

/-! ## Case analysis of `translate_text` -/

/-- The `except` arms of lines 169-180: failures the code recovers from. -/
def recoverableFailure : ProviderResult → Bool
  | .timeout => true
  | .requestError => true
  | .jsonDecodeError => true
  | .otherError => true
  | .success _ => false
  | .interrupt => false

theorem translate_text_passThrough (provider : Nat → ProviderResult) (text : String)
    (w : World) (d : TranslationDictionary) (p : ProgressBar)
    (h : passThrough text = true) :
    translate_text provider text w d p = .ok text w d p := by
  simp [translate_text, h]

theorem translate_text_hit (provider : Nat → ProviderResult) (text v : String)
    (w : World) (d : TranslationDictionary) (p : ProgressBar)
    (h : passThrough text = false) (hv : d.dictionary.lookup text = some v) :
    translate_text provider text w d p = .ok v w d (p.update 1 false true) := by
  simp [translate_text, h, hv]

theorem translate_text_success (provider : Nat → ProviderResult) (text content : String)
    (w : World) (d : TranslationDictionary) (p : ProgressBar)
    (h : passThrough text = false) (hm : d.dictionary.lookup text = none)
    (hs : provider w.providerCalls = .success content) :
    translate_text provider text w d p =
      .ok (pyStrip content)
        { w with
            providerCalls := w.providerCalls + 1
            dictFile := some (dictInsert text (pyStrip content) d.dictionary) }
        ⟨dictInsert text (pyStrip content) d.dictionary⟩
        (p.update 1 true false) := by
  simp [translate_text, h, hm, hs, TranslationDictionary.set, TranslationDictionary.save]

theorem translate_text_failure (provider : Nat → ProviderResult) (text : String)
    (w : World) (d : TranslationDictionary) (p : ProgressBar)
    (h : passThrough text = false) (hm : d.dictionary.lookup text = none)
    (hf : recoverableFailure (provider w.providerCalls) = true) :
    translate_text provider text w d p =
      .ok text { w with providerCalls := w.providerCalls + 1 } d (p.update 1 true false) := by
  cases hs : provider w.providerCalls <;>
    simp [hs, recoverableFailure] at hf <;>
    simp [translate_text, h, hm, hs]

theorem translate_text_interrupt (provider : Nat → ProviderResult) (text : String)
    (w : World) (d : TranslationDictionary) (p : ProgressBar)
    (h : passThrough text = false) (hm : d.dictionary.lookup text = none)
    (hi : provider w.providerCalls = .interrupt) :
    translate_text provider text w d p =
      .exited
        { w with
            providerCalls := w.providerCalls + 1
            dictFile := some d.dictionary } := by
  simp [translate_text, h, hm, hi, TranslationDictionary.save]

/-! ## C4: the settings-schema field-selection rule -/

/-- Modelled from the spec's words, for refinement comparison only: the
fixed set of scalar-translatable field names the claim lists for the
settings schema. -/
def claimedSettingsKeys : List String :=
  ["title", "label", "contents", "displayName", "description"]

/-- C4, counterexample.  The document `{"markdownDescription": "x"}` has its
string selected for translation by both the count pass and the traversal
(`REPLACE_TARGET_KEYS` also contains `markdownDescription`), yet
`markdownDescription` is not in the claim's five-element key set. -/
theorem C4_counterexample :
    count_translatable_items (.obj (.cons "markdownDescription" (.str "x") .nil)) = 1 ∧
    settings_invocations (.obj (.cons "markdownDescription" (.str "x") .nil)) = 1 ∧
    claimedSettingsKeys.contains "markdownDescription" = false := by
  refine ⟨rfl, rfl, by decide⟩

/-- C4 (amended).  A string value is selected as a scalar-translatable leaf
by the settings-schema rule — by the count pass and by the traversal alike —
exactly when its key is in `REPLACE_TARGET_KEYS`, the six-element set
{title, label, contents, displayName, description, markdownDescription}
(the `enumDescriptions` list rule for Array values is unchanged). -/
theorem C4_settings_rule (key s : String) (rest : JObj) :
    countItemsObj (.cons key (.str s) rest) =
      (if REPLACE_TARGET_KEYS.contains key then 1 else 0) + countItemsObj rest ∧
    settingsInvObj (.cons key (.str s) rest) =
      (if REPLACE_TARGET_KEYS.contains key then 1 else 0) + settingsInvObj rest := by
  by_cases h : key ∈ REPLACE_TARGET_KEYS
  · constructor <;> simp [countItemsObj, settingsInvObj, JValue.isStr, h]
  · constructor <;>
      simp [countItemsObj, settingsInvObj, JValue.isStr, JValue.isList, h,
        count_translatable_items, settings_invocations]

/-! ## C5: write-through durability -/

/-- C5.  `TranslationDictionary.set` persists: when it returns, the backing
store holds exactly the new in-memory mapping, which contains the new entry;
and after a successful provider translation `translate_text` returns with
the extended mapping already written to the backing store — the new
translation is never only in memory. -/
theorem C5_write_through (provider : Nat → ProviderResult)
    (key value text content : String) (w : World) (d : TranslationDictionary)
    (p : ProgressBar)
    (hpt : passThrough text = false) (hmiss : d.dictionary.lookup text = none)
    (hsucc : provider w.providerCalls = .success content) :
    ((d.set key value w).2).dictFile = some ((d.set key value w).1).dictionary ∧
    ((d.set key value w).1).get key = some value ∧
    translate_text provider text w d p =
      .ok (pyStrip content)
        { w with
            providerCalls := w.providerCalls + 1
            dictFile := some (dictInsert text (pyStrip content) d.dictionary) }
        ⟨dictInsert text (pyStrip content) d.dictionary⟩
        (p.update 1 true false) := by
  refine ⟨rfl, ?_, translate_text_success provider text content w d p hpt hmiss hsucc⟩
  simp [TranslationDictionary.set, TranslationDictionary.save, TranslationDictionary.get,
    lookup_dictInsert_self]

/-- C5, witness at `set("a", "b")` on an empty dictionary and a successful
translation of `"Hello"`. -/
theorem C5_write_through_witness :
    (((⟨[]⟩ : TranslationDictionary).set "a" "b" ⟨none, none, none, 0⟩).2).dictFile =
        some (((⟨[]⟩ : TranslationDictionary).set "a" "b" ⟨none, none, none, 0⟩).1).dictionary ∧
    (((⟨[]⟩ : TranslationDictionary).set "a" "b" ⟨none, none, none, 0⟩).1).get "a" = some "b" ∧
    translate_text (fun _ => .success "你好") "Hello" ⟨none, none, none, 0⟩ ⟨[]⟩ ⟨0, 0, 0, 0⟩ =
      .ok "你好" ⟨none, none, some [("Hello", "你好")], 1⟩ ⟨[("Hello", "你好")]⟩ ⟨0, 1, 1, 0⟩ :=
  C5_write_through (fun _ => .success "你好") "a" "b" "Hello" "你好"
    ⟨none, none, none, 0⟩ ⟨[]⟩ ⟨0, 0, 0, 0⟩ (by decide) rfl rfl

/-! ## C8: pass-through for empty and whitespace-only text -/

/-- A string whose characters are all whitespace satisfies the
`if not text or not text.strip():` guard. -/
theorem passThrough_of_all_space (text : String)
    (h : text.data.all isPySpace = true) : passThrough text = true := by
  have h1 : text.data.dropWhile isPySpace = [] := by
    rw [List.dropWhile_eq_nil_iff]
    intro x hx
    exact List.all_eq_true.mp h x hx
  have h2 : pyStrip text = ⟨[]⟩ := by simp [pyStrip, h1]
  have h3 : (⟨[]⟩ : String).isEmpty = true := rfl
  simp [passThrough, h2, h3]

/-- C8.  For text that is empty or consists only of whitespace,
`translate_text` returns the text unchanged and leaves the progress
counters (`current`, `api_calls`, `cache_hits`), the in-memory dictionary
and the whole external world (cache file, provider-call count) untouched. -/
theorem C8_pass_through (provider : Nat → ProviderResult) (text : String)
    (w : World) (d : TranslationDictionary) (p : ProgressBar)
    (h : text.data.all isPySpace = true) :
    translate_text provider text w d p = .ok text w d p :=
  translate_text_passThrough provider text w d p (passThrough_of_all_space text h)

/-- C8, witness at `"  "` with a populated cache and nonzero counters. -/
theorem C8_pass_through_witness :
    translate_text (fun _ => .success "噫") "  " ⟨none, none, some [("a", "b")], 3⟩
        ⟨[("a", "b")]⟩ ⟨7, 2, 1, 1⟩ =
      .ok "  " ⟨none, none, some [("a", "b")], 3⟩ ⟨[("a", "b")]⟩ ⟨7, 2, 1, 1⟩ :=
  C8_pass_through (fun _ => .success "噫") "  " ⟨none, none, some [("a", "b")], 3⟩
    ⟨[("a", "b")]⟩ ⟨7, 2, 1, 1⟩ (by decide)

/-! ## C9: cache correctness -/

/-- C9, counterexample.  For the whitespace text `T = " "` and `R = "X"`:
after `set(" ", "X")` the cache maps `" "` to `"X"`, yet `translate_text`
on `" "` takes the pass-through branch, not the cache-hit path — it returns
`" "` (not `"X"`) and does not increment the cache-hit counter. -/
theorem C9_counterexample :
    (((⟨[]⟩ : TranslationDictionary).set " " "X" ⟨none, none, none, 0⟩).1).get " " =
      some "X" ∧
    translate_text (fun _ => .timeout) " "
        (((⟨[]⟩ : TranslationDictionary).set " " "X" ⟨none, none, none, 0⟩).2)
        (((⟨[]⟩ : TranslationDictionary).set " " "X" ⟨none, none, none, 0⟩).1)
        ⟨0, 0, 0, 0⟩ =
      .ok " "
        (((⟨[]⟩ : TranslationDictionary).set " " "X" ⟨none, none, none, 0⟩).2)
        (((⟨[]⟩ : TranslationDictionary).set " " "X" ⟨none, none, none, 0⟩).1)
        ⟨0, 0, 0, 0⟩ :=
  ⟨rfl, rfl⟩

/-- C9 (amended, restricted to text that is not empty or whitespace-only —
the pass-through guard of `translate_text` fires before the cache lookup,
so whitespace keys are never served from the cache).  After `set(T, R)`:
`get(T)` returns `R`; a later run that loads the backing store written by
`set` also gets `R`; inserting any other key leaves the entry intact; and
`translate_text(T)` takes the cache-hit path — it returns `R`, increments
only the cache-hit counter and performs no provider call (world
unchanged). -/
theorem C9_cache_correctness (provider : Nat → ProviderResult) (T R : String)
    (w : World) (d : TranslationDictionary) (p : ProgressBar)
    (hpt : passThrough T = false) :
    ((d.set T R w).1).get T = some R ∧
    (TranslationDictionary.load ((d.set T R w).2)).get T = some R ∧
    (∀ T' R', T' ≠ T →
      (TranslationDictionary.get ⟨dictInsert T' R' ((d.set T R w).1).dictionary⟩ T) =
        some R) ∧
    translate_text provider T ((d.set T R w).2) ((d.set T R w).1) p =
      .ok R ((d.set T R w).2) ((d.set T R w).1) (p.update 1 false true) := by
  have hl : ((d.set T R w).1).dictionary.lookup T = some R := by
    simp [TranslationDictionary.set, lookup_dictInsert_self]
  refine ⟨hl, ?_, ?_, translate_text_hit provider T R _ _ p hpt hl⟩
  · simp [TranslationDictionary.load, TranslationDictionary.set, TranslationDictionary.save,
      TranslationDictionary.get, lookup_dictInsert_self]
  · intro T' R' hne
    simpa [TranslationDictionary.get,
      lookup_dictInsert_ne T T' R' ((d.set T R w).1).dictionary hne] using hl

/-- C9, witness at `T = "Hello"`, `R = "你好"`. -/
theorem C9_cache_correctness_witness :
    (((⟨[]⟩ : TranslationDictionary).set "Hello" "你好" ⟨none, none, none, 0⟩).1).get "Hello" =
      some "你好" ∧
    (TranslationDictionary.load
        (((⟨[]⟩ : TranslationDictionary).set "Hello" "你好" ⟨none, none, none, 0⟩).2)).get
        "Hello" = some "你好" ∧
    (∀ T' R', T' ≠ "Hello" →
      (TranslationDictionary.get
          ⟨dictInsert T' R'
            ((((⟨[]⟩ : TranslationDictionary).set "Hello" "你好"
                ⟨none, none, none, 0⟩).1)).dictionary⟩ "Hello") = some "你好") ∧
    translate_text (fun _ => .timeout) "Hello"
        (((⟨[]⟩ : TranslationDictionary).set "Hello" "你好" ⟨none, none, none, 0⟩).2)
        (((⟨[]⟩ : TranslationDictionary).set "Hello" "你好" ⟨none, none, none, 0⟩).1)
        ⟨1, 0, 0, 0⟩ =
      .ok "你好"
        (((⟨[]⟩ : TranslationDictionary).set "Hello" "你好" ⟨none, none, none, 0⟩).2)
        (((⟨[]⟩ : TranslationDictionary).set "Hello" "你好" ⟨none, none, none, 0⟩).1)
        ⟨1, 1, 0, 1⟩ :=
  C9_cache_correctness (fun _ => .timeout) "Hello" "你好" ⟨none, none, none, 0⟩ ⟨[]⟩
    ⟨1, 0, 0, 0⟩ (by decide)

/-! ## C10: the progress-counter invariant -/

/-- C10.  A non-pass-through `translate_text` call that returns advances the
processed counter by exactly 1 and exactly one of the API-call or cache-hit
counters by exactly 1 (a failed provider call still counts as an API call:
the counter moves before the request); consequently the invariant
`processed = api_calls + cache_hits` is preserved by every returning call,
pass-through included. -/
theorem C10_progress_counters (provider : Nat → ProviderResult) (text : String)
    (w : World) (d : TranslationDictionary) (p : ProgressBar) :
    (∀ r w' d' p', passThrough text = false →
        translate_text provider text w d p = .ok r w' d' p' →
        p'.current = p.current + 1 ∧
        ((p'.api_calls = p.api_calls + 1 ∧ p'.cache_hits = p.cache_hits) ∨
         (p'.cache_hits = p.cache_hits + 1 ∧ p'.api_calls = p.api_calls))) ∧
    (∀ r w' d' p', translate_text provider text w d p = .ok r w' d' p' →
        p.current = p.api_calls + p.cache_hits →
        p'.current = p'.api_calls + p'.cache_hits) := by
  cases hb : passThrough text with
  | true =>
    rw [translate_text_passThrough provider text w d p hb]
    constructor
    · intro r w' d' p' hf _
      exact Bool.noConfusion hf
    · intro r w' d' p' heq hinv
      injection heq with h1 h2 h3 h4
      rw [← h4]
      exact hinv
  | false =>
    cases hl : d.dictionary.lookup text with
    | some v =>
      rw [translate_text_hit provider text v w d p hb hl]
      constructor
      · intro r w' d' p' _ heq
        injection heq with h1 h2 h3 h4
        rw [← h4]
        refine ⟨rfl, Or.inr ⟨rfl, ?_⟩⟩
        simp [ProgressBar.update]
      · intro r w' d' p' heq hinv
        injection heq with h1 h2 h3 h4
        rw [← h4]
        simp [ProgressBar.update]
        omega
    | none =>
      cases hs : provider w.providerCalls with
      | success content =>
        rw [translate_text_success provider text content w d p hb hl hs]
        constructor
        · intro r w' d' p' _ heq
          injection heq with h1 h2 h3 h4
          rw [← h4]
          refine ⟨rfl, Or.inl ⟨rfl, ?_⟩⟩
          simp [ProgressBar.update]
        · intro r w' d' p' heq hinv
          injection heq with h1 h2 h3 h4
          rw [← h4]
          simp [ProgressBar.update]
          omega
      | interrupt =>
        rw [translate_text_interrupt provider text w d p hb hl hs]
        exact ⟨fun r w' d' p' _ heq => Res.noConfusion heq,
               fun r w' d' p' heq => Res.noConfusion heq⟩
      | timeout =>
        rw [translate_text_failure provider text w d p hb hl (by rw [hs]; rfl)]
        constructor
        · intro r w' d' p' _ heq
          injection heq with h1 h2 h3 h4
          rw [← h4]
          refine ⟨rfl, Or.inl ⟨rfl, ?_⟩⟩
          simp [ProgressBar.update]
        · intro r w' d' p' heq hinv
          injection heq with h1 h2 h3 h4
          rw [← h4]
          simp [ProgressBar.update]
          omega
      | requestError =>
        rw [translate_text_failure provider text w d p hb hl (by rw [hs]; rfl)]
        constructor
        · intro r w' d' p' _ heq
          injection heq with h1 h2 h3 h4
          rw [← h4]
          refine ⟨rfl, Or.inl ⟨rfl, ?_⟩⟩
          simp [ProgressBar.update]
        · intro r w' d' p' heq hinv
          injection heq with h1 h2 h3 h4
          rw [← h4]
          simp [ProgressBar.update]
          omega
      | jsonDecodeError =>
        rw [translate_text_failure provider text w d p hb hl (by rw [hs]; rfl)]
        constructor
        · intro r w' d' p' _ heq
          injection heq with h1 h2 h3 h4
          rw [← h4]
          refine ⟨rfl, Or.inl ⟨rfl, ?_⟩⟩
          simp [ProgressBar.update]
        · intro r w' d' p' heq hinv
          injection heq with h1 h2 h3 h4
          rw [← h4]
          simp [ProgressBar.update]
          omega
      | otherError =>
        rw [translate_text_failure provider text w d p hb hl (by rw [hs]; rfl)]
        constructor
        · intro r w' d' p' _ heq
          injection heq with h1 h2 h3 h4
          rw [← h4]
          refine ⟨rfl, Or.inl ⟨rfl, ?_⟩⟩
          simp [ProgressBar.update]
        · intro r w' d' p' heq hinv
          injection heq with h1 h2 h3 h4
          rw [← h4]
          simp [ProgressBar.update]
          omega

/-- C10, witness: a cache miss on `"Hello"` against a failing provider
advances `current` and `api_calls` by one each, so a failed call still
counts as an API call and the `processed = api + cache` sum is kept. -/
theorem C10_progress_counters_witness :
    (⟨9, 3, 2, 1⟩ : ProgressBar).current = (⟨9, 2, 1, 1⟩ : ProgressBar).current + 1 ∧
    (((⟨9, 3, 2, 1⟩ : ProgressBar).api_calls = (⟨9, 2, 1, 1⟩ : ProgressBar).api_calls + 1 ∧
      (⟨9, 3, 2, 1⟩ : ProgressBar).cache_hits = (⟨9, 2, 1, 1⟩ : ProgressBar).cache_hits) ∨
     ((⟨9, 3, 2, 1⟩ : ProgressBar).cache_hits = (⟨9, 2, 1, 1⟩ : ProgressBar).cache_hits + 1 ∧
      (⟨9, 3, 2, 1⟩ : ProgressBar).api_calls = (⟨9, 2, 1, 1⟩ : ProgressBar).api_calls)) :=
  (C10_progress_counters (fun _ => .timeout) "Hello" ⟨none, none, none, 0⟩ ⟨[]⟩
      ⟨9, 2, 1, 1⟩).1 "Hello" ⟨none, none, none, 1⟩ ⟨[]⟩ ⟨9, 3, 2, 1⟩ (by decide) rfl

/-! ## Traversal invariants

What a single step of either translate pass preserves: the two document
files are never touched; the in-memory dictionary only grows; whenever the
dictionary has grown, the backing store already holds the grown mapping
(write-through); the `processed = api + cache` counter invariant is kept;
and an exit can only come from an interrupt, with the current mapping
persisted at that moment. -/

/-- Relation between the state before and after a step that returned. -/
def OkInv (w : World) (d : TranslationDictionary) (p : ProgressBar)
    (w' : World) (d' : TranslationDictionary) (p' : ProgressBar) : Prop :=
  w'.packageFile = w.packageFile ∧ w'.contributionsFile = w.contributionsFile ∧
  (w'.dictFile = some d'.dictionary ∨ (w'.dictFile = w.dictFile ∧ d' = d)) ∧
  subDict d.dictionary d'.dictionary ∧
  (p.current = p.api_calls + p.cache_hits → p'.current = p'.api_calls + p'.cache_hits)

/-- Relation between the state before a step and the world after that step
exited the process. -/
def ExitInv (provider : Nat → ProviderResult) (w : World) (d : TranslationDictionary)
    (w' : World) : Prop :=
  w'.packageFile = w.packageFile ∧ w'.contributionsFile = w.contributionsFile ∧
  (∃ m, w'.dictFile = some m ∧ subDict d.dictionary m) ∧
  (∃ n, provider n = .interrupt)

/-- The step invariant, per result shape. -/
def ResInv {α : Type} (provider : Nat → ProviderResult) (w : World)
    (d : TranslationDictionary) (p : ProgressBar) : Res α → Prop
  | .ok _ w' d' p' => OkInv w d p w' d' p'
  | .exited w' => ExitInv provider w d w'

theorem OkInv.refl (w : World) (d : TranslationDictionary) (p : ProgressBar) :
    OkInv w d p w d p :=
  ⟨rfl, rfl, Or.inr ⟨rfl, rfl⟩, subDict_refl _, id⟩

theorem OkInv.trans {w d p w1 d1 p1 w2 d2 p2}
    (ha : OkInv w d p w1 d1 p1) (hb : OkInv w1 d1 p1 w2 d2 p2) :
    OkInv w d p w2 d2 p2 := by
  obtain ⟨ha1, ha2, ha3, ha4, ha5⟩ := ha
  obtain ⟨hb1, hb2, hb3, hb4, hb5⟩ := hb
  refine ⟨hb1.trans ha1, hb2.trans ha2, ?_, subDict_trans ha4 hb4, fun h => hb5 (ha5 h)⟩
  rcases hb3 with hb3 | ⟨hb3, hbd⟩
  · exact Or.inl hb3
  · subst hbd
    rcases ha3 with ha3 | ⟨ha3, had⟩
    · exact Or.inl (hb3.trans ha3)
    · subst had
      exact Or.inr ⟨hb3.trans ha3, rfl⟩

theorem OkInv.trans_exit {provider : Nat → ProviderResult} {w d p w1 d1 p1 w'}
    (ha : OkInv w d p w1 d1 p1) (hb : ExitInv provider w1 d1 w') :
    ExitInv provider w d w' := by
  obtain ⟨ha1, ha2, _, ha4, _⟩ := ha
  obtain ⟨hb1, hb2, ⟨m, hm, hsub⟩, hint⟩ := hb
  exact ⟨hb1.trans ha1, hb2.trans ha2, ⟨m, hm, subDict_trans ha4 hsub⟩, hint⟩

/-- Every `translate_text` call satisfies the step invariant. -/
theorem translate_text_inv (provider : Nat → ProviderResult) (text : String)
    (w : World) (d : TranslationDictionary) (p : ProgressBar) :
    ResInv provider w d p (translate_text provider text w d p) := by
  cases hb : passThrough text with
  | true =>
    rw [translate_text_passThrough provider text w d p hb]
    exact OkInv.refl w d p
  | false =>
    cases hl : d.dictionary.lookup text with
    | some v =>
      rw [translate_text_hit provider text v w d p hb hl]
      refine ⟨rfl, rfl, Or.inr ⟨rfl, rfl⟩, subDict_refl _, fun h => ?_⟩
      simp [ProgressBar.update]
      omega
    | none =>
      cases hs : provider w.providerCalls with
      | success content =>
        rw [translate_text_success provider text content w d p hb hl hs]
        refine ⟨rfl, rfl, Or.inl rfl, subDict_dictInsert _ _ _ hl, fun h => ?_⟩
        simp [ProgressBar.update]
        omega
      | interrupt =>
        rw [translate_text_interrupt provider text w d p hb hl hs]
        exact ⟨rfl, rfl, ⟨d.dictionary, rfl, subDict_refl _⟩, ⟨w.providerCalls, hs⟩⟩
      | timeout =>
        rw [translate_text_failure provider text w d p hb hl (by rw [hs]; rfl)]
        refine ⟨rfl, rfl, Or.inr ⟨rfl, rfl⟩, subDict_refl _, fun h => ?_⟩
        simp [ProgressBar.update]
        omega
      | requestError =>
        rw [translate_text_failure provider text w d p hb hl (by rw [hs]; rfl)]
        refine ⟨rfl, rfl, Or.inr ⟨rfl, rfl⟩, subDict_refl _, fun h => ?_⟩
        simp [ProgressBar.update]
        omega
      | jsonDecodeError =>
        rw [translate_text_failure provider text w d p hb hl (by rw [hs]; rfl)]
        refine ⟨rfl, rfl, Or.inr ⟨rfl, rfl⟩, subDict_refl _, fun h => ?_⟩
        simp [ProgressBar.update]
        omega
      | otherError =>
        rw [translate_text_failure provider text w d p hb hl (by rw [hs]; rfl)]
        refine ⟨rfl, rfl, Or.inr ⟨rfl, rfl⟩, subDict_refl _, fun h => ?_⟩
        simp [ProgressBar.update]
        omega

section TraversalInv

variable (provider : Nat → ProviderResult)

mutual

theorem traverse_and_translate_inv : ∀ (v : JValue) (w : World)
    (d : TranslationDictionary) (p : ProgressBar),
    ResInv provider w d p (traverse_and_translate provider v w d p)
  | .obj o, w, d, p => by
    simp only [traverse_and_translate]
    have h := travSettingsObj_inv o w d p
    cases hres : travSettingsObj provider o w d p with
    | ok o' w' d' p' => rw [hres] at h; exact h
    | exited w' => rw [hres] at h; exact h
  | .arr a, w, d, p => by
    simp only [traverse_and_translate]
    have h := travSettingsArr_inv a w d p
    cases hres : travSettingsArr provider a w d p with
    | ok a' w' d' p' => rw [hres] at h; exact h
    | exited w' => rw [hres] at h; exact h
  | .str s, w, d, p => OkInv.refl w d p
  | .num n, w, d, p => OkInv.refl w d p
  | .jbool b, w, d, p => OkInv.refl w d p
  | .null, w, d, p => OkInv.refl w d p

theorem travSettingsObj_inv : ∀ (o : JObj) (w : World)
    (d : TranslationDictionary) (p : ProgressBar),
    ResInv provider w d p (travSettingsObj provider o w d p)
  | .nil, w, d, p => OkInv.refl w d p
  | .cons key value rest, w, d, p => by
    simp only [travSettingsObj]
    by_cases h1 : (REPLACE_TARGET_KEYS.contains key && value.isStr) = true
    · rw [if_pos h1]
      have ha := translate_text_inv provider value.asStr w d p
      split
      next r w1 d1 p1 heq =>
        rw [heq] at ha
        have hb := travSettingsObj_inv rest w1 d1 p1
        split
        next rest2 w2 d2 p2 heq2 => rw [heq2] at hb; exact ha.trans hb
        next w2 heq2 => rw [heq2] at hb; exact ha.trans_exit hb
      next w1 heq => rw [heq] at ha; exact ha
    · rw [if_neg h1]
      by_cases h2 : (key == "enumDescriptions" && value.isList) = true
      · rw [if_pos h2]
        cases value with
        | arr a =>
          split
          next a2 heq =>
            injection heq with h
            subst h
            have ha := travEnumDescriptions_inv a w d p
            split
            next a3 w1 d1 p1 heq2 =>
              rw [heq2] at ha
              have hb := travSettingsObj_inv rest w1 d1 p1
              split
              next rest2 w2 d2 p2 heq3 => rw [heq3] at hb; exact ha.trans hb
              next w2 heq3 => rw [heq3] at hb; exact ha.trans_exit hb
            next w1 heq2 => rw [heq2] at ha; exact ha
          next x heq => exact (heq a rfl).elim
        | obj o => simp [JValue.isList] at h2
        | str s => simp [JValue.isList] at h2
        | num n => simp [JValue.isList] at h2
        | jbool b => simp [JValue.isList] at h2
        | null => simp [JValue.isList] at h2
      · rw [if_neg h2]
        have ha := traverse_and_translate_inv value w d p
        split
        next v2 w1 d1 p1 heq =>
          rw [heq] at ha
          have hb := travSettingsObj_inv rest w1 d1 p1
          split
          next rest2 w2 d2 p2 heq2 => rw [heq2] at hb; exact ha.trans hb
          next w2 heq2 => rw [heq2] at hb; exact ha.trans_exit hb
        next w1 heq => rw [heq] at ha; exact ha

theorem travEnumDescriptions_inv : ∀ (a : JArr) (w : World)
    (d : TranslationDictionary) (p : ProgressBar),
    ResInv provider w d p (travEnumDescriptions provider a w d p)
  | .nil, w, d, p => OkInv.refl w d p
  | .cons item rest, w, d, p => by
    simp only [travEnumDescriptions]
    by_cases h1 : item.isStr = true
    · rw [if_pos h1]
      have ha := translate_text_inv provider item.asStr w d p
      split
      next r w1 d1 p1 heq =>
        rw [heq] at ha
        have hb := travEnumDescriptions_inv rest w1 d1 p1
        split
        next rest2 w2 d2 p2 heq2 => rw [heq2] at hb; exact ha.trans hb
        next w2 heq2 => rw [heq2] at hb; exact ha.trans_exit hb
      next w1 heq => rw [heq] at ha; exact ha
    · rw [if_neg h1]
      have hb := travEnumDescriptions_inv rest w d p
      split
      next rest2 w1 d1 p1 heq => rw [heq] at hb; exact hb
      next w1 heq => rw [heq] at hb; exact hb

theorem travSettingsArr_inv : ∀ (a : JArr) (w : World)
    (d : TranslationDictionary) (p : ProgressBar),
    ResInv provider w d p (travSettingsArr provider a w d p)
  | .nil, w, d, p => OkInv.refl w d p
  | .cons item rest, w, d, p => by
    simp only [travSettingsArr]
    have ha := traverse_and_translate_inv item w d p
    split
    next item2 w1 d1 p1 heq =>
      rw [heq] at ha
      have hb := travSettingsArr_inv rest w1 d1 p1
      split
      next rest2 w2 d2 p2 heq2 => rw [heq2] at hb; exact ha.trans hb
      next w2 heq2 => rw [heq2] at hb; exact ha.trans_exit hb
    next w1 heq => rw [heq] at ha; exact ha

end

mutual

theorem translate_in_object_inv : ∀ (v : JValue) (w : World)
    (d : TranslationDictionary) (p : ProgressBar),
    ResInv provider w d p (translate_in_object provider v w d p)
  | .obj o, w, d, p => by
    simp only [translate_in_object]
    have h := travContribObj_inv o w d p
    cases hres : travContribObj provider o w d p with
    | ok o' w' d' p' => rw [hres] at h; exact h
    | exited w' => rw [hres] at h; exact h
  | .arr a, w, d, p => by
    simp only [translate_in_object]
    have h := travContribArr_inv a w d p
    cases hres : travContribArr provider a w d p with
    | ok a' w' d' p' => rw [hres] at h; exact h
    | exited w' => rw [hres] at h; exact h
  | .str s, w, d, p => OkInv.refl w d p
  | .num n, w, d, p => OkInv.refl w d p
  | .jbool b, w, d, p => OkInv.refl w d p
  | .null, w, d, p => OkInv.refl w d p

theorem travContribObj_inv : ∀ (o : JObj) (w : World)
    (d : TranslationDictionary) (p : ProgressBar),
    ResInv provider w d p (travContribObj provider o w d p)
  | .nil, w, d, p => OkInv.refl w d p
  | .cons key value rest, w, d, p => by
    simp only [travContribObj]
    by_cases h1 : (key == "label" && value.isStr) = true
    · rw [if_pos h1]
      have ha := translate_text_inv provider value.asStr w d p
      split
      next r w1 d1 p1 heq =>
        rw [heq] at ha
        have hb := travContribObj_inv rest w1 d1 p1
        split
        next rest2 w2 d2 p2 heq2 => rw [heq2] at hb; exact ha.trans hb
        next w2 heq2 => rw [heq2] at hb; exact ha.trans_exit hb
      next w1 heq => rw [heq] at ha; exact ha
    · rw [if_neg h1]
      by_cases h2 : (key == "name" && value.isStr) = true
      · rw [if_pos h2]
        have ha := translate_text_inv provider value.asStr w d p
        split
        next r w1 d1 p1 heq =>
          rw [heq] at ha
          have hb := travContribObj_inv rest w1 d1 p1
          split
          next rest2 w2 d2 p2 heq2 => rw [heq2] at hb; exact ha.trans hb
          next w2 heq2 => rw [heq2] at hb; exact ha.trans_exit hb
        next w1 heq => rw [heq] at ha; exact ha
      · rw [if_neg h2]
        by_cases h3 : (key == "contents" && value.isStr) = true
        · rw [if_pos h3]
          have ha := translate_text_inv provider value.asStr w d p
          split
          next r w1 d1 p1 heq =>
            rw [heq] at ha
            have hb := travContribObj_inv rest w1 d1 p1
            split
            next rest2 w2 d2 p2 heq2 => rw [heq2] at hb; exact ha.trans hb
            next w2 heq2 => rw [heq2] at hb; exact ha.trans_exit hb
          next w1 heq => rw [heq] at ha; exact ha
        · rw [if_neg h3]
          by_cases h4 : ((key == "title" || key == "description") && value.isStr) = true
          · rw [if_pos h4]
            have ha := translate_text_inv provider value.asStr w d p
            split
            next r w1 d1 p1 heq =>
              rw [heq] at ha
              have hb := travContribObj_inv rest w1 d1 p1
              split
              next rest2 w2 d2 p2 heq2 => rw [heq2] at hb; exact ha.trans hb
              next w2 heq2 => rw [heq2] at hb; exact ha.trans_exit hb
            next w1 heq => rw [heq] at ha; exact ha
          · rw [if_neg h4]
            have ha := translate_in_object_inv value w d p
            split
            next v2 w1 d1 p1 heq =>
              rw [heq] at ha
              have hb := travContribObj_inv rest w1 d1 p1
              split
              next rest2 w2 d2 p2 heq2 => rw [heq2] at hb; exact ha.trans hb
              next w2 heq2 => rw [heq2] at hb; exact ha.trans_exit hb
            next w1 heq => rw [heq] at ha; exact ha

theorem travContribArr_inv : ∀ (a : JArr) (w : World)
    (d : TranslationDictionary) (p : ProgressBar),
    ResInv provider w d p (travContribArr provider a w d p)
  | .nil, w, d, p => OkInv.refl w d p
  | .cons item rest, w, d, p => by
    simp only [travContribArr]
    have ha := translate_in_object_inv item w d p
    split
    next item2 w1 d1 p1 heq =>
      rw [heq] at ha
      have hb := travContribArr_inv rest w1 d1 p1
      split
      next rest2 w2 d2 p2 heq2 => rw [heq2] at hb; exact ha.trans hb
      next w2 heq2 => rw [heq2] at hb; exact ha.trans_exit hb
    next w1 heq => rw [heq] at ha; exact ha

end

end TraversalInv

/-- An exit during `translate_contributions_file` leaves both document files
untouched and the cache persisted. -/
theorem translate_contributions_file_exit (provider : Nat → ProviderResult)
    (w : World) (d : TranslationDictionary) (w' : World)
    (h : translate_contributions_file provider w d = .exited w') :
    w'.packageFile = w.packageFile ∧ w'.contributionsFile = w.contributionsFile ∧
    ∃ m, w'.dictFile = some m ∧ subDict d.dictionary m := by
  unfold translate_contributions_file at h
  split at h
  · exact RunRes.noConfusion h
  next data hcf =>
    dsimp only at h
    split at h
    · exact RunRes.noConfusion h
    · split at h
      next data' w1 d1 p1 hio => exact RunRes.noConfusion h
      next w1 hio =>
        injection h with hw
        subst hw
        have hinv := translate_in_object_inv provider data w d
          ⟨count_contributions_translatable_items data, 0, 0, 0⟩
        rw [hio] at hinv
        obtain ⟨h1, h2, h3, _⟩ := hinv
        exact ⟨h1, h2, h3⟩

/-- C6.  If a translate pass — settings or contributions — is interrupted
(the pass exits before finishing), the world it leaves behind has both
document files byte-identical to their pre-run state, while the cache file
holds a mapping that contains, with its exact value, every entry of the
pass's starting dictionary (first two conjuncts) **and every translation
obtained mid-pass before the interrupt** (third and fourth conjuncts: a leaf
translated successfully earlier in the pass — cache miss, provider success —
is still in the store that a later interrupt of the remaining traversal
leaves behind, mapped to the translation that was obtained).  Only the cache
may have advanced.  At the orchestrator level, an interrupted `main` never
touches the contributions file. -/
theorem C6_interrupt_atomicity (provider : Nat → ProviderResult) (doc : JValue)
    (w : World) (d : TranslationDictionary) (p : ProgressBar) :
    (∀ w', traverse_and_translate provider doc w d p = .exited w' →
        w'.packageFile = w.packageFile ∧ w'.contributionsFile = w.contributionsFile ∧
        ∃ m, w'.dictFile = some m ∧ subDict d.dictionary m) ∧
    (∀ w', translate_in_object provider doc w d p = .exited w' →
        w'.packageFile = w.packageFile ∧ w'.contributionsFile = w.contributionsFile ∧
        ∃ m, w'.dictFile = some m ∧ subDict d.dictionary m) ∧
    (∀ (text content r : String) (w1 : World) (d1 : TranslationDictionary)
        (p1 : ProgressBar) (doc2 : JValue) (w' : World),
        passThrough text = false →
        d.dictionary.lookup text = none →
        provider w.providerCalls = .success content →
        translate_text provider text w d p = .ok r w1 d1 p1 →
        traverse_and_translate provider doc2 w1 d1 p1 = .exited w' →
        w'.packageFile = w.packageFile ∧ w'.contributionsFile = w.contributionsFile ∧
        ∃ m, w'.dictFile = some m ∧ m.lookup text = some r) ∧
    (∀ (text content r : String) (w1 : World) (d1 : TranslationDictionary)
        (p1 : ProgressBar) (doc2 : JValue) (w' : World),
        passThrough text = false →
        d.dictionary.lookup text = none →
        provider w.providerCalls = .success content →
        translate_text provider text w d p = .ok r w1 d1 p1 →
        translate_in_object provider doc2 w1 d1 p1 = .exited w' →
        w'.packageFile = w.packageFile ∧ w'.contributionsFile = w.contributionsFile ∧
        ∃ m, w'.dictFile = some m ∧ m.lookup text = some r) ∧
    (∀ api_key w', main provider api_key w = (.interrupted, w') →
        w'.contributionsFile = w.contributionsFile) := by
  refine ⟨?_, ?_, ?_, ?_, ?_⟩
  · intro w' hres
    have h := traverse_and_translate_inv provider doc w d p
    rw [hres] at h
    obtain ⟨h1, h2, h3, _⟩ := h
    exact ⟨h1, h2, h3⟩
  · intro w' hres
    have h := translate_in_object_inv provider doc w d p
    rw [hres] at h
    obtain ⟨h1, h2, h3, _⟩ := h
    exact ⟨h1, h2, h3⟩
  · intro text content r w1 d1 p1 doc2 w' hpt hmiss hsucc hcall hexit
    have hform := translate_text_success provider text content w d p hpt hmiss hsucc
    rw [hcall] at hform
    injection hform with h1 h2 h3 h4
    subst h1 h2 h3 h4
    have hinv := traverse_and_translate_inv provider doc2
      { w with
          providerCalls := w.providerCalls + 1
          dictFile := some (dictInsert text (pyStrip content) d.dictionary) }
      ⟨dictInsert text (pyStrip content) d.dictionary⟩ (p.update 1 true false)
    rw [hexit] at hinv
    obtain ⟨hp, hc, ⟨m, hm, hsub⟩, _⟩ := hinv
    exact ⟨hp, hc, m, hm,
      hsub text (pyStrip content) (lookup_dictInsert_self text (pyStrip content) _)⟩
  · intro text content r w1 d1 p1 doc2 w' hpt hmiss hsucc hcall hexit
    have hform := translate_text_success provider text content w d p hpt hmiss hsucc
    rw [hcall] at hform
    injection hform with h1 h2 h3 h4
    subst h1 h2 h3 h4
    have hinv := translate_in_object_inv provider doc2
      { w with
          providerCalls := w.providerCalls + 1
          dictFile := some (dictInsert text (pyStrip content) d.dictionary) }
      ⟨dictInsert text (pyStrip content) d.dictionary⟩ (p.update 1 true false)
    rw [hexit] at hinv
    obtain ⟨hp, hc, ⟨m, hm, hsub⟩, _⟩ := hinv
    exact ⟨hp, hc, m, hm,
      hsub text (pyStrip content) (lookup_dictInsert_self text (pyStrip content) _)⟩
  · intro api_key w' hmain
    by_cases hk : api_key.isEmpty = true
    · simp [main, hk] at hmain
    · cases hpf : w.packageFile with
      | none => simp [main, hk, hpf] at hmain
      | some data =>
        by_cases hrem : ((count_translatable_items data : Int) -
            ((TranslationDictionary.load w).dictionary.length : Int) ≤ 0)
        · cases htrav : traverse_and_translate provider data w (TranslationDictionary.load w)
              ⟨count_translatable_items data, 0, 0, 0⟩ with
          | ok data' w1 d1 p1 => simp [main, hk, hpf, hrem, htrav] at hmain
          | exited w1 =>
            simp [main, hk, hpf, hrem, htrav] at hmain
            have h := traverse_and_translate_inv provider data w (TranslationDictionary.load w)
              ⟨count_translatable_items data, 0, 0, 0⟩
            rw [htrav] at h
            obtain ⟨_, h2, _, _⟩ := h
            rw [← hmain]
            exact h2
        · cases htrav : traverse_and_translate provider data w (TranslationDictionary.load w)
              ⟨count_translatable_items data, 0, 0, 0⟩ with
          | exited w1 =>
            simp [main, hk, hpf, hrem, htrav] at hmain
            have h := traverse_and_translate_inv provider data w (TranslationDictionary.load w)
              ⟨count_translatable_items data, 0, 0, 0⟩
            rw [htrav] at h
            obtain ⟨_, h2, _, _⟩ := h
            rw [← hmain]
            exact h2
          | ok data' w1 d1 p1 =>
            have htravinv := traverse_and_translate_inv provider data w (TranslationDictionary.load w)
              ⟨count_translatable_items data, 0, 0, 0⟩
            rw [htrav] at htravinv
            cases hcon : translate_contributions_file provider
                { w1 with packageFile := some data' } d1 with
            | ok b w3 d3 => simp [main, hk, hpf, hrem, htrav, hcon] at hmain
            | exited w3 =>
              simp [main, hk, hpf, hrem, htrav, hcon] at hmain
              obtain ⟨_, hc, _⟩ := translate_contributions_file_exit provider
                { w1 with packageFile := some data' } d1 w3 hcon
              rw [← hmain, hc]
              exact htravinv.2.1

/-- C6, witness: the first leaf `"A"` is translated successfully
(provider call 0 returns `"好"`, write-through persists `("A", "好")`), then
the provider interrupts on the next leaf `"B"` (call 1); the world the
interrupt leaves behind has both document files untouched and its cache
file still maps `"A"` to the translation obtained before the interrupt. -/
theorem C6_interrupt_atomicity_witness :
    (⟨none, none, some [("A", "好")], 2⟩ : World).packageFile =
        (⟨none, none, none, 0⟩ : World).packageFile ∧
    (⟨none, none, some [("A", "好")], 2⟩ : World).contributionsFile =
        (⟨none, none, none, 0⟩ : World).contributionsFile ∧
    ∃ m, (⟨none, none, some [("A", "好")], 2⟩ : World).dictFile = some m ∧
      m.lookup "A" = some "好" :=
  (C6_interrupt_atomicity (fun n => if n == 0 then .success "好" else .interrupt)
      .null ⟨none, none, none, 0⟩ ⟨[]⟩ ⟨2, 0, 0, 0⟩).2.2.1
    "A" "好" "好" ⟨none, none, some [("A", "好")], 1⟩ ⟨[("A", "好")]⟩ ⟨2, 1, 1, 0⟩
    (.obj (.cons "label" (.str "B") .nil)) ⟨none, none, some [("A", "好")], 2⟩
    (by decide) rfl rfl rfl rfl

/-- The document `{"title": "A", "label": "B"}`. -/
def twoLeafDoc : JValue :=
  .obj (.cons "title" (.str "A") (.cons "label" (.str "B") .nil))

/-- C7.  A recoverable provider failure (timeout, transport error,
malformed/unparseable response) makes `translate_text` return the original
text with the in-memory dictionary and cache file untouched for that key,
and the traversal continues: under a provider that never interrupts, both
translate passes always return (no abort).  Concretely, when the provider
fails on exactly one of the two leaves of `{"title": "A", "label": "B"}`,
the other leaf is still translated and the pass completes. -/
theorem C7_partial_failure_isolation (provider : Nat → ProviderResult) :
    (∀ (text : String) (w : World) (d : TranslationDictionary) (p : ProgressBar),
        passThrough text = false → d.dictionary.lookup text = none →
        recoverableFailure (provider w.providerCalls) = true →
        translate_text provider text w d p =
          .ok text { w with providerCalls := w.providerCalls + 1 } d
            (p.update 1 true false)) ∧
    (∀ (doc : JValue) (w : World) (d : TranslationDictionary) (p : ProgressBar),
        (∀ n, provider n ≠ .interrupt) →
        (∃ doc' w' d' p', traverse_and_translate provider doc w d p = .ok doc' w' d' p') ∧
        (∃ doc' w' d' p', translate_in_object provider doc w d p = .ok doc' w' d' p')) ∧
    traverse_and_translate (fun n => if n == 0 then .timeout else .success "乙")
        twoLeafDoc ⟨none, none, none, 0⟩ ⟨[]⟩ ⟨2, 0, 0, 0⟩ =
      .ok (.obj (.cons "title" (.str "A") (.cons "label" (.str "乙") .nil)))
        ⟨none, none, some [("B", "乙")], 2⟩ ⟨[("B", "乙")]⟩ ⟨2, 2, 2, 0⟩ := by
  refine ⟨fun text w d p h1 h2 h3 => translate_text_failure provider text w d p h1 h2 h3,
    ?_, rfl⟩
  intro doc w d p hno
  constructor
  · have h := traverse_and_translate_inv provider doc w d p
    cases hres : traverse_and_translate provider doc w d p with
    | ok doc' w' d' p' => exact ⟨doc', w', d', p', rfl⟩
    | exited w' =>
      rw [hres] at h
      obtain ⟨_, _, _, n, hn⟩ := h
      exact absurd hn (hno n)
  · have h := translate_in_object_inv provider doc w d p
    cases hres : translate_in_object provider doc w d p with
    | ok doc' w' d' p' => exact ⟨doc', w', d', p', rfl⟩
    | exited w' =>
      rw [hres] at h
      obtain ⟨_, _, _, n, hn⟩ := h
      exact absurd hn (hno n)

/-- C7, witness: a timeout on a cache miss returns the text unchanged with
the cache untouched, and a never-interrupting provider lets the settings
pass over `{"title": "Hello"}` complete. -/
theorem C7_partial_failure_isolation_witness :
    translate_text (fun _ => .timeout) "Hi" ⟨none, none, none, 5⟩ ⟨[]⟩ ⟨3, 1, 1, 0⟩ =
      .ok "Hi" ⟨none, none, none, 6⟩ ⟨[]⟩ ⟨3, 2, 2, 0⟩ ∧
    (∃ doc' w' d' p', traverse_and_translate (fun _ => .timeout) titleHelloDoc
        ⟨none, none, none, 0⟩ ⟨[]⟩ ⟨1, 0, 0, 0⟩ = .ok doc' w' d' p') :=
  ⟨(C7_partial_failure_isolation (fun _ => .timeout)).1 "Hi" ⟨none, none, none, 5⟩ ⟨[]⟩
      ⟨3, 1, 1, 0⟩ (by decide) rfl rfl,
   ((C7_partial_failure_isolation (fun _ => .timeout)).2.1 titleHelloDoc
      ⟨none, none, none, 0⟩ ⟨[]⟩ ⟨1, 0, 0, 0⟩ (fun _ h => ProviderResult.noConfusion h)).1⟩

/-! ## C2 and C3: the `remaining <= 0` branch of `main` -/

/-- C2.  The `remaining` figure does gate control flow: when
`remaining <= 0` (here: `package.json = {}`, empty cache, so `remaining`
is 0), `main` takes the branch on which the local `progress` is never
assigned, and the final-count log line (line 341) raises a NameError — the
run dies with no package.json write-back, no contributions pass and no
final dictionary save.  When `remaining > 0` (same orchestrator, document
`{"title": "Hello"}`, empty cache), the run completes: the pass runs, the
document is written back and the dictionary is saved. -/
theorem C2_remaining_branch_diverges :
    main (fun _ => .timeout) "key" ⟨some (.obj .nil), none, none, 0⟩ =
      (.nameError, ⟨some (.obj .nil), none, none, 0⟩) ∧
    main (fun _ => .success "你好") "key" ⟨some titleHelloDoc, none, none, 0⟩ =
      (.success,
        ⟨some (.obj (.cons "title" (.str "你好") .nil)), none,
          some [("Hello", "你好")], 1⟩) :=
  ⟨rfl, rfl⟩

/-- C3.  Re-running `main` on `{"title": "Hello"}` with the fully warmed
cache `{"Hello": "你好"}` left by a previous successful run: the count is 1,
the cache has 1 key, so `remaining = 0` and the `remaining <= 0` branch is
taken.  The pass itself makes zero provider calls (pure cache hit), but the
run then dies with the NameError of line 341 instead of completing: the
returned world is bit-for-bit the input world — zero provider calls, but
also no package.json write-back, no contributions pass, no final save, and
a crash instead of a successful exit. -/
theorem C3_warm_cache_rerun_crashes :
    main (fun _ => .timeout) "key"
        ⟨some titleHelloDoc, none, some [("Hello", "你好")], 0⟩ =
      (.nameError, ⟨some titleHelloDoc, none, some [("Hello", "你好")], 0⟩) :=
  rfl

end Translation